import Mathlib

/-!
# DevValue — Usage Ingestion & Attribution Engine, verified model

A shallow embedding of the core of the `devvalue` repository:

* the JSONL record parser and streaming-dedup tailer (`JsonlTokenSniffer`,
  `src/core/JsonlTokenSniffer.ts`, streaming-dedup variant),
* the one-shot historical reader (`HistoricalTokenReader`),
* the pricing table (`modelPricing.ts`),
* the flow/idle engine (`PtaFlowEngine.ts`),
* the cost aggregator (`CostCalculator.ts`).

JavaScript numbers are modelled as exact rationals (`ℚ`); JS `Map`s are
modelled as insertion-ordered association lists with the `Map.set` /
`Map.delete` semantics.  File I/O, `fs.watch`, timers and `Date` are external
to the embedded core: parsing takes the outcome of `JSON.parse` (an optional
JSON value, `none` for a syntax error caught by the source's `try`/`catch`)
and an environment supplying `Date` behaviour.
-/

namespace DevValue

/-- JSON values, the result of a successful `JSON.parse`. -/
inductive Json where
  | null : Json
  | bool (b : Bool) : Json
  | num (q : ℚ) : Json
  | str (s : String) : Json
  | arr (elems : List Json) : Json
  | obj (fields : List (String × Json)) : Json

/-- Source: `typeof v === 'string' ? v : null` on an optional property. -/
def jsStr? : Option Json → Option String
  | some (Json.str s) => some s
  | _ => none

/-- Source: `isObj(v)`: an object that is neither `null` nor an
array; returns the field list when it is. -/
def jsObj? : Option Json → Option (List (String × Json))
  | some (Json.obj fields) => some fields
  | _ => none

/-- Source: `toInt`:
`typeof v === 'number' && v > 0 ? Math.floor(v) : 0`. -/
def toInt : Option Json → ℕ
  | some (Json.num q) => if 0 < q then (⌊q⌋).toNat else 0
  | _ => 0

/-- Source: `record['k'] === true` for an optional property. -/
def jsIsTrue (v : Option Json) : Bool :=
  match v with
  | some (Json.bool true) => true
  | _ => false

/-! ## Pricing table (`modelPricing.ts`) -/

/-- Per-million-token unit costs for one model. -/
structure ModelPricing where
  inputPer1M : ℚ
  outputPer1M : ℚ
  cacheWritePer1M : ℚ
  cacheReadPer1M : ℚ
deriving DecidableEq

/-- Source: `MODEL_PRICING`, in object-literal insertion order
(`Object.entries` iterates in that order). -/
def MODEL_PRICING : List (String × ModelPricing) :=
  [ ("claude-opus-4-6",   ⟨15, 75, 18.75, 1.50⟩),
    ("claude-opus-4-5",   ⟨15, 75, 18.75, 1.50⟩),
    ("claude-sonnet-4-6", ⟨3, 15, 3.75, 0.30⟩),
    ("claude-sonnet-4-5", ⟨3, 15, 3.75, 0.30⟩),
    ("claude-haiku-4-5",  ⟨0.80, 4, 1.00, 0.08⟩) ]

/-- Source: `DEFAULT_PRICING`: the sonnet-4-6 row. -/
def DEFAULT_PRICING : ModelPricing := ⟨3, 15, 3.75, 0.30⟩

/-- Source: `getPricing(model)`: exact match, then first case-insensitive
prefix match in entry order, then the default. -/
def getPricing (model : String) : ModelPricing :=
  match MODEL_PRICING.lookup model with
  | some p => p
  | none =>
    let lower := model.toLower
    match MODEL_PRICING.find?
        (fun kp => lower.startsWith kp.1 || kp.1.startsWith lower) with
    | some kp => kp.2
    | none => DEFAULT_PRICING

/-! ## Usage records -/

/-- Source: `TokenUsage` as built by the streaming sniffer's `buildRecord`. -/
structure TokenUsage where
  uuid : Option String
  messageId : String
  timestamp : ℚ
  model : String
  inputTokens : ℕ
  outputTokens : ℕ
  cacheWriteTokens : ℕ
  cacheReadTokens : ℕ
  costUsd : ℚ
  isBackground : Bool
  sessionId : String
  branchName : String
deriving DecidableEq

/-- Source: `ParsedRecord`: a fully parsed record before streaming-dedup.
`stopReason = none` marks a streaming partial frame. -/
structure ParsedRecord where
  messageId : String
  stopReason : Option String
  usage : TokenUsage
deriving DecidableEq

/-- The `Date` facilities used by the parser: `new Date(s).getTime()` and
`Date.now()`.  External to the embedded core. -/
structure JsEnv where
  dateParse : String → ℚ
  now : ℚ

/-- Source: `record['timestamp']` handling shared by both parse paths:
a string field goes through `Date`, anything else falls back to now. -/
def recordTimestamp (env : JsEnv) (record : List (String × Json)) : ℚ :=
  match jsStr? (record.lookup "timestamp") with
  | some s => env.dateParse s
  | none => env.now

/-- Source: `buildRecord` of the streaming sniffer: token coercion, eager cost
computation, and assembly of the emitted `TokenUsage`. -/
def buildRecord (record : List (String × Json)) (messageId : String)
    (stopReason : Option String) (model : String) (timestamp : ℚ)
    (usage : List (String × Json)) : ParsedRecord :=
  let inputTokens := toInt (usage.lookup "input_tokens")
  let outputTokens := toInt (usage.lookup "output_tokens")
  let cacheWriteTokens := toInt (usage.lookup "cache_creation_input_tokens")
  let cacheReadTokens := toInt (usage.lookup "cache_read_input_tokens")
  let pricing := getPricing model
  let costUsd :=
    ((inputTokens : ℚ) * pricing.inputPer1M +
     (outputTokens : ℚ) * pricing.outputPer1M +
     (cacheWriteTokens : ℚ) * pricing.cacheWritePer1M +
     (cacheReadTokens : ℚ) * pricing.cacheReadPer1M) / 1000000
  { messageId := messageId
    stopReason := stopReason
    usage :=
      { uuid := jsStr? (record.lookup "uuid")
        messageId := messageId
        timestamp := timestamp
        model := model
        inputTokens := inputTokens
        outputTokens := outputTokens
        cacheWriteTokens := cacheWriteTokens
        cacheReadTokens := cacheReadTokens
        costUsd := costUsd
        isBackground := jsIsTrue (record.lookup "isSidechain")
        sessionId := (jsStr? (record.lookup "sessionId")).getD ""
        branchName := (jsStr? (record.lookup "gitBranch")).getD "" } }

/-- Source: `parseAssistantRecord`: a direct `type:"assistant"` record. -/
def parseAssistantRecord (env : JsEnv) (record : List (String × Json)) :
    Option ParsedRecord :=
  match jsObj? (record.lookup "message") with
  | none => none
  | some message =>
    match jsObj? (message.lookup "usage") with
    | none => none
    | some usage =>
      match jsStr? (message.lookup "id") with
      | none => none
      | some messageId =>
        if messageId = "" then none
        else
          let stopReason := jsStr? (message.lookup "stop_reason")
          let model := (jsStr? (message.lookup "model")).getD "unknown"
          some (buildRecord record messageId stopReason model
            (recordTimestamp env record) usage)

/-- Source: `parseProgressRecord`: a nested `type:"progress"` record with the
assistant fields at `data.message.message`. -/
def parseProgressRecord (env : JsEnv) (record : List (String × Json)) :
    Option ParsedRecord :=
  match jsObj? (record.lookup "data") with
  | none => none
  | some data =>
    match jsObj? (data.lookup "message") with
    | none => none
    | some outerMsg =>
      match jsObj? (outerMsg.lookup "message") with
      | none => none
      | some innerMsg =>
        match jsObj? (innerMsg.lookup "usage") with
        | none => none
        | some usage =>
          match jsStr? (innerMsg.lookup "id") with
          | none => none
          | some messageId =>
            if messageId = "" then none
            else
              let stopReason := jsStr? (innerMsg.lookup "stop_reason")
              let model := (jsStr? (innerMsg.lookup "model")).getD "unknown"
              some (buildRecord record messageId stopReason model
                (recordTimestamp env record) usage)

/-- Source: `parseLine` of the streaming sniffer.  The argument is the outcome of
`JSON.parse` on the trimmed line; `none` models a syntax error swallowed
by the source's `try`/`catch`. -/
def parseLine (env : JsEnv) (parsed? : Option Json) : Option ParsedRecord :=
  match parsed? with
  | none => none
  | some record =>
    match record with
    | Json.obj fields =>
      match fields.lookup "type" with
      | some (Json.str t) =>
        if t = "assistant" then parseAssistantRecord env fields
        else if t = "progress" then parseProgressRecord env fields
        else none
      | _ => none
    | _ => none

/-! ## JS `Map` semantics for the pending buffer -/

/-- Source: `Map.set`: replace in place when the key is present (insertion order is
kept), otherwise append. -/
def mapSet {α : Type} (m : List (String × α)) (k : String) (v : α) :
    List (String × α) :=
  if m.any (fun p => p.1 == k) then
    m.map (fun p => if p.1 == k then (k, v) else p)
  else m ++ [(k, v)]

/-- Source: `Map.delete`: drop the entry with the given key. -/
def mapDelete {α : Type} (m : List (String × α)) (k : String) :
    List (String × α) :=
  m.filter (fun p => !(p.1 == k))

/-! ## Streaming-dedup tailer (`JsonlTokenSniffer`) -/

/-- The sniffer state relevant to dedup: the `running` flag and the
`pending` buffer of partial frames keyed by `message.id`.
File offsets and watchers are external I/O bookkeeping. -/
structure SnifferState where
  running : Bool
  pending : List (String × ParsedRecord)
deriving DecidableEq

/-- The state right after constructing the sniffer and calling `start()`. -/
def startedSniffer : SnifferState := ⟨true, []⟩

/-- Source: `ingestParsed`: a final frame (`stopReason ≠ null`) deletes any buffered
partial for its id and is emitted at once; a partial frame is stored,
replacing any previous partial for the id.  Returns the new state and the
list of usage events emitted by this call. -/
def ingestParsed (s : SnifferState) (rec : ParsedRecord) :
    SnifferState × List TokenUsage :=
  match rec.stopReason with
  | some _ =>
    ({ s with pending := mapDelete s.pending rec.messageId }, [rec.usage])
  | none =>
    ({ s with pending := mapSet s.pending rec.messageId rec }, [])

/-- Ingest a sequence of parsed records in order, concatenating the
emissions (one file's lines are processed in on-disk order). -/
def ingestAll (s : SnifferState) : List ParsedRecord →
    SnifferState × List TokenUsage
  | [] => (s, [])
  | rec :: recs =>
    let step := ingestParsed s rec
    let rest := ingestAll step.1 recs
    (rest.1, step.2 ++ rest.2)

/-- Source: `stop()`: a no-op when not running; otherwise flush every buffered
partial (in `Map.values()` insertion order), clear the buffer and stop. -/
def snifferStop (s : SnifferState) : SnifferState × List TokenUsage :=
  if s.running then
    (⟨false, []⟩, s.pending.map (fun p => p.2.usage))
  else (s, [])

/-! ## One-shot historical reader (`HistoricalTokenReader`) -/

/-- Source: `TokenUsage` as returned by the historical reader's `parseLine`
(the older record shape: no message id, no cache-token fields). -/
structure HistTokenUsage where
  uuid : Option String
  timestamp : ℚ
  model : String
  inputTokens : ℕ
  outputTokens : ℕ
  costUsd : ℚ
  isBackground : Bool
  sessionId : String
  branchName : String
deriving DecidableEq

/-- One raw line of a JSONL file, as seen by the `readline` handler:
blank after trimming, invalid JSON, or a parsed JSON value. -/
inductive RawLine where
  | blank : RawLine
  | invalid : RawLine
  | json (j : Json) : RawLine

/-- The historical reader's `parseLine`: recognizes only
`type:"assistant"` records and applies no dedup. -/
def histParseJson (env : JsEnv) (parsed? : Option Json) :
    Option HistTokenUsage :=
  match parsed? with
  | none => none
  | some record =>
    match record with
    | Json.obj fields =>
      match fields.lookup "type" with
      | some (Json.str t) =>
        if t = "assistant" then
          match jsObj? (fields.lookup "message") with
          | none => none
          | some message =>
            match jsObj? (message.lookup "usage") with
            | none => none
            | some usage =>
              let model := (jsStr? (message.lookup "model")).getD "unknown"
              let inputTokens := toInt (usage.lookup "input_tokens")
              let outputTokens := toInt (usage.lookup "output_tokens")
              let cacheWriteTokens :=
                toInt (usage.lookup "cache_creation_input_tokens")
              let cacheReadTokens :=
                toInt (usage.lookup "cache_read_input_tokens")
              let pricing := getPricing model
              let costUsd :=
                ((inputTokens : ℚ) * pricing.inputPer1M +
                 (outputTokens : ℚ) * pricing.outputPer1M +
                 (cacheWriteTokens : ℚ) * pricing.cacheWritePer1M +
                 (cacheReadTokens : ℚ) * pricing.cacheReadPer1M) / 1000000
              some
                { uuid := jsStr? (fields.lookup "uuid")
                  timestamp := recordTimestamp env fields
                  model := model
                  inputTokens := inputTokens
                  outputTokens := outputTokens
                  costUsd := costUsd
                  isBackground := jsIsTrue (fields.lookup "isSidechain")
                  sessionId := (jsStr? (fields.lookup "sessionId")).getD ""
                  branchName := (jsStr? (fields.lookup "gitBranch")).getD "" }
        else none
      | _ => none
    | _ => none

/-- One raw line through the reader's line handler: blank lines are skipped
before parsing, invalid JSON is caught inside `parseLine`. -/
def histParseRawLine (env : JsEnv) : RawLine → Option HistTokenUsage
  | RawLine.blank => none
  | RawLine.invalid => histParseJson env none
  | RawLine.json j => histParseJson env (some j)

/-- Source: `readFile`: every line that parses contributes one record, in order. -/
def histReadFile (env : JsEnv) (lines : List RawLine) : List HistTokenUsage :=
  lines.filterMap (histParseRawLine env)

/-- Source: `readAll`: concatenate the per-file results over the expanded file set. -/
def histReadAll (env : JsEnv) (files : List (List RawLine)) :
    List HistTokenUsage :=
  files.flatMap (histReadFile env)

/-! ## Flow/idle engine (`PtaFlowEngine`) -/

/-- Source: `FLOW_MULTIPLIER`. -/
def FLOW_MULTIPLIER : ℚ := 4

/-- Source: `WINDOW_MS`: the 60 s sliding window. -/
def WINDOW_MS : ℚ := 60000

/-- The engine's configuration: `maxIdleTimeout` in seconds and
`flowThreshold` in events per minute. -/
structure FlowConfig where
  maxIdleTimeout : ℚ
  flowThreshold : ℚ
deriving DecidableEq

/-- The mutable state of `PtaFlowEngine`: the sliding window of event
timestamps, the last event time (0 before any event), and the
accumulated active milliseconds. -/
structure PtaFlowState where
  eventWindow : List ℚ
  lastEventTime : ℚ
  activeMs : ℚ
deriving DecidableEq

/-- Source: `reset()` / initial state. -/
def flowReset : PtaFlowState := ⟨[], 0, 0⟩

/-- The derived `FlowState` view. -/
structure FlowState where
  isInFlow : Bool
  eventRate : ℕ
  idleTimeout : ℚ
  isIdle : Bool
deriving DecidableEq

/-- Source: `getFlowState(now)`. -/
def getFlowState (cfg : FlowConfig) (s : PtaFlowState) (now : ℚ) :
    FlowState :=
  let cutoff := now - WINDOW_MS
  let recentEvents := s.eventWindow.filter (fun t => decide (cutoff < t))
  let eventRate := recentEvents.length
  let isInFlow := decide (cfg.flowThreshold ≤ (eventRate : ℚ))
  let idleTimeout :=
    if isInFlow then cfg.maxIdleTimeout * 1000 * FLOW_MULTIPLIER
    else cfg.maxIdleTimeout * 1000
  let isIdle :=
    decide (0 < s.lastEventTime) && decide (idleTimeout < now - s.lastEventTime)
  ⟨isInFlow, eventRate, idleTimeout, isIdle⟩

/-- Source: `recordEvent(event)`: credit the gap when it fits inside the idle
timeout in effect before this event, then advance the window. -/
def recordEvent (cfg : FlowConfig) (s : PtaFlowState) (t : ℚ) :
    PtaFlowState :=
  let credited :=
    if 0 < s.lastEventTime then
      let gap := t - s.lastEventTime
      let flowState := getFlowState cfg s s.lastEventTime
      if gap ≤ flowState.idleTimeout then s.activeMs + gap else s.activeMs
    else s.activeMs
  let cutoff := t - WINDOW_MS
  { eventWindow := (s.eventWindow.filter (fun x => decide (cutoff < x))) ++ [t]
    lastEventTime := t
    activeMs := credited }

/-- Record a sequence of events in order. -/
def recordEvents (cfg : FlowConfig) (s : PtaFlowState) (ts : List ℚ) :
    PtaFlowState :=
  ts.foldl (recordEvent cfg) s

/-- Source: `getActiveSeconds()`. -/
def getActiveSeconds (s : PtaFlowState) : ℚ := s.activeMs / 1000

/-! ## Cost aggregator (`CostCalculator`) -/

/-- Source: `CostBreakdown`. -/
structure CostBreakdown where
  humanCostUsd : ℚ
  aiCostUsd : ℚ
  totalCostUsd : ℚ
  focusHours : ℚ
deriving DecidableEq

/-- Source: `CostCalculator.breakdown(focusSeconds, tokenUsages, includeBackground)`
for a calculator constructed with `hourlyRate`. -/
def breakdown (hourlyRate : ℚ) (focusSeconds : ℚ)
    (tokenUsages : List TokenUsage) (includeBackground : Bool) :
    CostBreakdown :=
  let filtered :=
    if includeBackground then tokenUsages
    else tokenUsages.filter (fun t => !t.isBackground)
  let focusHours := focusSeconds / 3600
  let humanCostUsd := focusHours * hourlyRate
  let aiCostUsd := filtered.foldl (fun sum t => sum + t.costUsd) 0
  { humanCostUsd := humanCostUsd
    aiCostUsd := aiCostUsd
    totalCostUsd := humanCostUsd + aiCostUsd
    focusHours := focusHours }

/-! ## Concrete fixtures used by witnesses and counterexamples -/

/-- A `Date` environment for concrete runs: every timestamp parses to 0. -/
def env0 : JsEnv := ⟨fun _ => 0, 0⟩

/-- A hand-built usage value for dedup-level runs (final frame). -/
def finUsage : TokenUsage :=
  ⟨none, "m1", 0, "claude-sonnet-4-6", 100, 50, 0, 0, 1, false, "", ""⟩

/-- A hand-built usage value for dedup-level runs (partial frame). -/
def partUsage : TokenUsage :=
  ⟨none, "m1", 0, "claude-sonnet-4-6", 80, 40, 0, 0, 2, false, "", ""⟩

/-- A second hand-built partial-frame usage value for the same call. -/
def partUsage2 : TokenUsage :=
  ⟨none, "m1", 0, "claude-sonnet-4-6", 90, 45, 0, 0, 3, false, "", ""⟩

/-- A final frame for message id `m1`. -/
def finRec : ParsedRecord := ⟨"m1", some "end_turn", finUsage⟩

/-- A partial frame for message id `m1`. -/
def partRec : ParsedRecord := ⟨"m1", none, partUsage⟩

/-- A second partial frame for message id `m1`. -/
def partRec2 : ParsedRecord := ⟨"m1", none, partUsage2⟩

/-- Fields of a `type:"progress"` line with no top-level `isSidechain`
flag (the spec's nested record shape carries none). -/
def progressNoSidechainFields : List (String × Json) :=
  [ ("type", Json.str "progress"),
    ("timestamp", Json.str "2026-01-01T00:00:00Z"),
    ("data", Json.obj
      [ ("message", Json.obj
          [ ("message", Json.obj
              [ ("id", Json.str "msg_p1"),
                ("model", Json.str "claude-haiku-4-5"),
                ("stop_reason", Json.str "end_turn"),
                ("usage", Json.obj
                  [ ("input_tokens", Json.num 10),
                    ("output_tokens", Json.num 5) ]) ]) ]) ]) ]

/-- A `type:"progress"` line with no top-level `isSidechain` flag. -/
def progressNoSidechain : Json := Json.obj progressNoSidechainFields

/-- The parsed record of `progressNoSidechain`. -/
def progressParsed : ParsedRecord :=
  (parseLine env0 (some progressNoSidechain)).getD ⟨"", none, finUsage⟩

/-- Final `type:"assistant"` line: model sonnet-4-6, 1000 in / 500 out. -/
def finalLine1 : Json :=
  Json.obj
    [ ("type", Json.str "assistant"),
      ("message", Json.obj
        [ ("id", Json.str "m1"),
          ("model", Json.str "claude-sonnet-4-6"),
          ("stop_reason", Json.str "end_turn"),
          ("usage", Json.obj
            [ ("input_tokens", Json.num 1000),
              ("output_tokens", Json.num 500) ]) ]) ]

/-- Final `type:"assistant"` line: model sonnet-4-6, 2000 in / 1000 out. -/
def finalLine2 : Json :=
  Json.obj
    [ ("type", Json.str "assistant"),
      ("message", Json.obj
        [ ("id", Json.str "m2"),
          ("model", Json.str "claude-sonnet-4-6"),
          ("stop_reason", Json.str "end_turn"),
          ("usage", Json.obj
            [ ("input_tokens", Json.num 2000),
              ("output_tokens", Json.num 1000) ]) ]) ]

/-- The two final lines of the end-to-end cost scenario, parsed. -/
def sampleRecords : List ParsedRecord :=
  (parseLine env0 (some finalLine1)).toList ++
    (parseLine env0 (some finalLine2)).toList

/-- The usage events the sniffer emits for the two final lines. -/
def sampleEmissions : List TokenUsage :=
  (ingestAll startedSniffer sampleRecords).2

/-- The first of the two parsed records of the end-to-end cost scenario. -/
def sampleRec1 : ParsedRecord :=
  (parseLine env0 (some finalLine1)).getD ⟨"", none, finUsage⟩

/-- Fields of a `type:"assistant"` line whose `message` lacks a usage
object. -/
def assistantNoUsageFields : List (String × Json) :=
  [ ("type", Json.str "assistant"),
    ("message", Json.obj [ ("id", Json.str "m9") ]) ]

/-- A `type:"assistant"` line whose `message` lacks a usage object. -/
def assistantNoUsage : Json := Json.obj assistantNoUsageFields

/-- A partial streaming frame (no `stop_reason`) for message id `m-dup`. -/
def partialFrame1 : Json :=
  Json.obj
    [ ("type", Json.str "assistant"),
      ("message", Json.obj
        [ ("id", Json.str "m-dup"),
          ("model", Json.str "claude-sonnet-4-6"),
          ("usage", Json.obj
            [ ("input_tokens", Json.num 100),
              ("output_tokens", Json.num 10) ]) ]) ]

/-- A later partial streaming frame for the same message id `m-dup`. -/
def partialFrame2 : Json :=
  Json.obj
    [ ("type", Json.str "assistant"),
      ("message", Json.obj
        [ ("id", Json.str "m-dup"),
          ("model", Json.str "claude-sonnet-4-6"),
          ("usage", Json.obj
            [ ("input_tokens", Json.num 100),
              ("output_tokens", Json.num 20) ]) ]) ]

/-- The configuration of the flow/idle scenario: 300 s base timeout,
flow threshold 3 events/min. -/
def cfg300 : FlowConfig := ⟨300, 3⟩

/-- The engine state after a burst of 4 events inside one 60 s window. -/
def burstState : PtaFlowState :=
  recordEvents cfg300 flowReset [1000, 20000, 40000, 59000]

/-- Whether one raw line is counted by the historical reader: a JSON
object with `type:"assistant"`, an object `message` and an object
`message.usage`. -/
def histQualifies : RawLine → Bool
  | RawLine.json (Json.obj fields) =>
    match fields.lookup "type" with
    | some (Json.str t) =>
      if t = "assistant" then
        match jsObj? (fields.lookup "message") with
        | some message => (jsObj? (message.lookup "usage")).isSome
        | none => false
      else false
    | _ => false
  | _ => false

/-! ## Helper lemmas -/

/-- Left-folding `+ costUsd` from `a` is `a` plus the sum of the costs. -/
lemma foldl_add_costUsd (l : List TokenUsage) (a : ℚ) :
    l.foldl (fun sum t => sum + t.costUsd) a =
      a + (l.map (fun t => t.costUsd)).sum := by
  induction l generalizing a with
  | nil => simp
  | cons x xs ih => simp [ih, add_assoc]

/-- Closed form of `breakdown`, shared by the aggregator claims. -/
lemma breakdown_eq (hourlyRate focusSeconds : ℚ)
    (tokenUsages : List TokenUsage) (includeBackground : Bool) :
    breakdown hourlyRate focusSeconds tokenUsages includeBackground =
      { humanCostUsd := focusSeconds / 3600 * hourlyRate
        aiCostUsd :=
          (((if includeBackground then tokenUsages
             else tokenUsages.filter (fun t => !t.isBackground)).map
            (fun t => t.costUsd)).sum : ℚ)
        totalCostUsd := focusSeconds / 3600 * hourlyRate +
          (((if includeBackground then tokenUsages
             else tokenUsages.filter (fun t => !t.isBackground)).map
            (fun t => t.costUsd)).sum : ℚ)
        focusHours := focusSeconds / 3600 } := by
  unfold breakdown
  simp [foldl_add_costUsd]

/-! ## Claim theorems -/

/-- C7: for every focusSeconds, record list and includeBackground flag,
`breakdown` returns exactly `humanCostUsd = focusSeconds/3600 × hourlyRate`,
`aiCostUsd` = the sum of `costUsd` over the records kept after dropping
`isBackground` ones (none dropped when the flag is set),
`totalCostUsd = humanCostUsd + aiCostUsd`, and
`focusHours = focusSeconds/3600`, with no clamping or rounding. -/
theorem c7_breakdown_formula (hourlyRate focusSeconds : ℚ)
    (records : List TokenUsage) (includeBackground : Bool) :
    breakdown hourlyRate focusSeconds records includeBackground =
      { humanCostUsd := focusSeconds / 3600 * hourlyRate
        aiCostUsd :=
          (((if includeBackground then records
             else records.filter (fun t => !t.isBackground)).map
            (fun t => t.costUsd)).sum : ℚ)
        totalCostUsd := focusSeconds / 3600 * hourlyRate +
          (((if includeBackground then records
             else records.filter (fun t => !t.isBackground)).map
            (fun t => t.costUsd)).sum : ℚ)
        focusHours := focusSeconds / 3600 } :=
  breakdown_eq hourlyRate focusSeconds records includeBackground

/-- C8: `breakdown` is deterministic (it is a pure function of its
arguments) and order-independent — permuting the record list leaves the
returned `CostBreakdown` unchanged. -/
theorem c8_breakdown_perm (hourlyRate focusSeconds : ℚ)
    (l1 l2 : List TokenUsage) (includeBackground : Bool)
    (h : l1.Perm l2) :
    breakdown hourlyRate focusSeconds l1 includeBackground =
      breakdown hourlyRate focusSeconds l2 includeBackground := by
  rw [breakdown_eq, breakdown_eq]
  have hsum :
      ((if includeBackground then l1
        else l1.filter (fun t => !t.isBackground)).map
        (fun t => t.costUsd)).sum =
      ((if includeBackground then l2
        else l2.filter (fun t => !t.isBackground)).map
        (fun t => t.costUsd)).sum := by
    cases includeBackground with
    | true => simp [List.Perm.sum_eq (List.Perm.map _ h)]
    | false =>
      simp [List.Perm.sum_eq (List.Perm.map _ (List.Perm.filter _ h))]
  simp [hsum]

/-- Witness for C8: swapping two concrete records leaves the result
unchanged. -/
theorem c8_breakdown_perm_witness :
    breakdown 75 3600 [finUsage, partUsage] false =
      breakdown 75 3600 [partUsage, finUsage] false :=
  c8_breakdown_perm 75 3600 [finUsage, partUsage] [partUsage, finUsage]
    false (by decide)

/-- Ingesting a concatenation is ingesting the parts in order. -/
lemma ingestAll_append (s : SnifferState) (l1 l2 : List ParsedRecord) :
    ingestAll s (l1 ++ l2) =
      ((ingestAll (ingestAll s l1).1 l2).1,
       (ingestAll s l1).2 ++ (ingestAll (ingestAll s l1).1 l2).2) := by
  induction l1 generalizing s with
  | nil => simp [ingestAll]
  | cons r l1 ih => simp [ingestAll, ih, List.append_assoc]

/-- Partial frames are buffered, never emitted. -/
lemma ingestAll_partials_noEmit (s : SnifferState) (ps : List ParsedRecord)
    (h : ∀ r ∈ ps, r.stopReason = none) : (ingestAll s ps).2 = [] := by
  induction ps generalizing s with
  | nil => rfl
  | cons p ps ih =>
    have hp := h p (List.mem_cons_self p ps)
    simp [ingestAll, ingestParsed, hp,
      ih _ (fun r hr => h r (List.mem_cons_of_mem _ hr))]

/-- A single final frame emits exactly its own usage. -/
lemma ingestAll_single_final (s : SnifferState) (fr : ParsedRecord)
    (x : String) (h : fr.stopReason = some x) :
    ingestAll s [fr] =
      ({ s with pending := mapDelete s.pending fr.messageId },
       [fr.usage]) := by
  simp [ingestAll, ingestParsed, h]

/-- Ingesting partial frames for id `m` into a buffer holding one entry
for `m` keeps exactly one entry for `m`: the last partial seen. -/
lemma ingestAll_partials_pending (m : String) (ps : List ParsedRecord)
    (cur : ParsedRecord) (b : Bool)
    (h : ∀ r ∈ ps, r.messageId = m ∧ r.stopReason = none) :
    (ingestAll ⟨b, [(m, cur)]⟩ ps).1 = ⟨b, [(m, ps.getLastD cur)]⟩ := by
  induction ps generalizing cur with
  | nil => rfl
  | cons p ps ih =>
    have hp := h p (List.mem_cons_self p ps)
    have hstep : ingestParsed ⟨b, [(m, cur)]⟩ p =
        (⟨b, [(m, p)]⟩, []) := by
      simp [ingestParsed, hp.2, mapSet, hp.1]
    simp only [ingestAll, hstep, List.getLastD_cons]
    exact ih p (fun r hr => h r (List.mem_cons_of_mem _ hr))

/-- C1: for every sequence of parsed records sharing one messageId made of
zero or more partial frames (stopReason = none) followed by exactly one
final frame (stopReason ≠ none), the dedup logic emits exactly one usage
event, and that event is the final frame's usage (so its token counts are
the final frame's token counts). -/
theorem c1_final_frame_emitted_once (s : SnifferState)
    (ps : List ParsedRecord) (fr : ParsedRecord) (m : String)
    (hps : ∀ r ∈ ps, r.messageId = m ∧ r.stopReason = none)
    (_hfm : fr.messageId = m) (hfs : fr.stopReason ≠ none) :
    (ingestAll s (ps ++ [fr])).2 = [fr.usage] ∧
    ∀ e ∈ (ingestAll s (ps ++ [fr])).2,
      e.inputTokens = fr.usage.inputTokens ∧
      e.outputTokens = fr.usage.outputTokens ∧
      e.cacheWriteTokens = fr.usage.cacheWriteTokens ∧
      e.cacheReadTokens = fr.usage.cacheReadTokens := by
  obtain ⟨x, hx⟩ := Option.ne_none_iff_exists'.mp hfs
  have hemit : (ingestAll s (ps ++ [fr])).2 = [fr.usage] := by
    rw [ingestAll_append]
    rw [ingestAll_partials_noEmit s ps (fun r hr => (hps r hr).2)]
    rw [ingestAll_single_final _ fr x hx]
    rfl
  refine ⟨hemit, ?_⟩
  intro e he
  rw [hemit] at he
  simp only [List.mem_singleton] at he
  subst he
  exact ⟨rfl, rfl, rfl, rfl⟩

/-- Witness for C1: two partials then a final for `m1` emit exactly the
final frame's usage. -/
theorem c1_final_frame_emitted_once_witness :
    (ingestAll startedSniffer ([partRec, partRec2] ++ [finRec])).2 =
      [finRec.usage] :=
  (c1_final_frame_emitted_once startedSniffer [partRec, partRec2] finRec
    "m1" (by decide) (by decide) (by decide)).1

/-- C2 (code evaluation at the failing input): ingesting a final frame for
`m1` and then a partial frame for `m1` leaves a pending entry for `m1`
even though a final frame for `m1` has been observed, and a later `stop()`
flushes that partial as a second usage event for the same call. -/
theorem c2_partial_after_final_rebuffered :
    (ingestAll startedSniffer [finRec, partRec]).1.pending =
      [("m1", partRec)] ∧
    (snifferStop (ingestAll startedSniffer [finRec, partRec]).1).2 =
      [partUsage] := by
  decide

/-- C3: for a nonempty sequence of partial frames for one messageId and no
final frame, ingestion emits nothing, `stop()` emits exactly one usage
event carrying the last-seen partial's usage, and a second `stop()` emits
no events and leaves the state unchanged. -/
theorem c3_stop_flushes_last_partial_once (ps : List ParsedRecord)
    (m : String) (hne : ps ≠ [])
    (h : ∀ r ∈ ps, r.messageId = m ∧ r.stopReason = none) :
    (ingestAll startedSniffer ps).2 = [] ∧
    (snifferStop (ingestAll startedSniffer ps).1).2 =
      [(ps.getLast hne).usage] ∧
    snifferStop (snifferStop (ingestAll startedSniffer ps).1).1 =
      ((snifferStop (ingestAll startedSniffer ps).1).1, []) := by
  match ps, hne with
  | p :: ps, _ =>
    have hp := h p (List.mem_cons_self p ps)
    have hrest : ∀ r ∈ ps, r.messageId = m ∧ r.stopReason = none :=
      fun r hr => h r (List.mem_cons_of_mem _ hr)
    have hstep : ingestParsed startedSniffer p = (⟨true, [(m, p)]⟩, []) := by
      simp [ingestParsed, hp.2, startedSniffer, mapSet, hp.1]
    have hstate : (ingestAll startedSniffer (p :: ps)).1 =
        ⟨true, [(m, ps.getLastD p)]⟩ := by
      simp only [ingestAll, hstep]
      exact ingestAll_partials_pending m ps p true hrest
    refine ⟨?_, ?_, ?_⟩
    · exact ingestAll_partials_noEmit _ _ (fun r hr => (h r hr).2)
    · rw [hstate]
      rw [List.getLast_eq_getLastD p ps _]
      rfl
    · rw [hstate]
      rfl

/-- Witness for C3: a single partial for `m1`, flushed once by `stop()`,
with the second `stop()` a no-op. -/
theorem c3_stop_flushes_last_partial_once_witness :
    (ingestAll startedSniffer [partRec]).2 = [] ∧
    (snifferStop (ingestAll startedSniffer [partRec]).1).2 =
      [([partRec].getLast (by decide)).usage] ∧
    snifferStop (snifferStop (ingestAll startedSniffer [partRec]).1).1 =
      ((snifferStop (ingestAll startedSniffer [partRec]).1).1, []) :=
  c3_stop_flushes_last_partial_once [partRec] "m1" (by decide) (by decide)

/-- C5: an event at time `t` after a previous event credits
`gap = t - lastEventTime` to active time exactly when the gap is at most
the idle timeout computed from the window as it stood before adding `t`:
`maxIdleTimeout × 4` (in ms) when that window's event rate is at least
`flowThreshold`, and the base `maxIdleTimeout` otherwise. -/
theorem c5_gap_credited_iff_within_prior_timeout (cfg : FlowConfig)
    (s : PtaFlowState) (t : ℚ) (h : 0 < s.lastEventTime) :
    (recordEvent cfg s t).activeMs =
      if t - s.lastEventTime ≤
          (if cfg.flowThreshold ≤
              (((s.eventWindow.filter
                (fun x => decide (s.lastEventTime - WINDOW_MS < x))).length : ℚ))
           then cfg.maxIdleTimeout * 1000 * 4
           else cfg.maxIdleTimeout * 1000)
      then s.activeMs + (t - s.lastEventTime)
      else s.activeMs := by
  simp only [recordEvent, getFlowState, FLOW_MULTIPLIER, decide_eq_true_eq,
    if_pos h]

/-- Witness for C5: with `flowThreshold = 3` and `maxIdleTimeout = 300 s`,
after a burst of 4 events inside 60 s a gap of 1000 s is credited in full
(it is measured against 1200 s, although it exceeds the base 300 s). -/
theorem c5_gap_credited_iff_within_prior_timeout_witness :
    0 < burstState.lastEventTime ∧
    (recordEvent cfg300 burstState 1059000).activeMs =
      burstState.activeMs + 1000000 := by
  have hb : burstState = ⟨[1000, 20000, 40000, 59000], 59000, 58000⟩ := by
    norm_num [burstState, recordEvents, recordEvent, getFlowState, flowReset,
      cfg300, WINDOW_MS, FLOW_MULTIPLIER, List.filter]
  refine ⟨by rw [hb]; norm_num, ?_⟩
  rw [c5_gap_credited_iff_within_prior_timeout cfg300 burstState 1059000
    (by rw [hb]; norm_num)]
  rw [hb]
  norm_num [WINDOW_MS, List.filter, cfg300]

/-- Every successful `parseAssistantRecord` result is a `buildRecord`
over the line's top-level fields. -/
lemma parseAssistantRecord_shape (env : JsEnv)
    (record : List (String × Json)) (r : ParsedRecord)
    (h : parseAssistantRecord env record = some r) :
    ∃ mid sr model usage,
      r = buildRecord record mid sr model (recordTimestamp env record)
        usage := by
  unfold parseAssistantRecord at h
  repeat' split at h
  all_goals first
    | exact Option.noConfusion h
    | (simp only [Option.some.injEq] at h; exact ⟨_, _, _, _, h.symm⟩)

/-- Every successful `parseProgressRecord` result is a `buildRecord`
over the line's top-level fields. -/
lemma parseProgressRecord_shape (env : JsEnv)
    (record : List (String × Json)) (r : ParsedRecord)
    (h : parseProgressRecord env record = some r) :
    ∃ mid sr model usage,
      r = buildRecord record mid sr model (recordTimestamp env record)
        usage := by
  unfold parseProgressRecord at h
  repeat' split at h
  all_goals first
    | exact Option.noConfusion h
    | (simp only [Option.some.injEq] at h; exact ⟨_, _, _, _, h.symm⟩)

/-- Every successful `parseLine` result is a `buildRecord` over the
line's top-level fields. -/
lemma parseLine_shape (env : JsEnv) (fields : List (String × Json))
    (r : ParsedRecord)
    (h : parseLine env (some (Json.obj fields)) = some r) :
    ∃ mid sr model usage,
      r = buildRecord fields mid sr model (recordTimestamp env fields)
        usage := by
  simp only [parseLine] at h
  repeat' split at h
  all_goals first
    | exact Option.noConfusion h
    | exact parseAssistantRecord_shape env fields r h
    | exact parseProgressRecord_shape env fields r h

/-- C4 counterexample: a `type:"progress"` line with no top-level
`isSidechain` flag parses to a usage record with `isBackground = false`,
so progress records are not background by construction. -/
theorem c4_progress_not_always_background :
    (parseLine env0 (some progressNoSidechain)).map
      (fun r => r.usage.isBackground) = some false := by
  rfl

/-- C4 as amended: a parsed record's `isBackground` is true exactly when
the line's top-level `isSidechain` field is `true` — for progress records
just as for assistant records; nesting alone does not make a record
background. -/
theorem c4_isBackground_iff_isSidechain (env : JsEnv)
    (fields : List (String × Json)) (r : ParsedRecord)
    (h : parseLine env (some (Json.obj fields)) = some r) :
    r.usage.isBackground = jsIsTrue (fields.lookup "isSidechain") := by
  obtain ⟨mid, sr, model, usage, rfl⟩ := parseLine_shape env fields r h
  rfl

/-- Witness for amended C4: the concrete progress line parses, and its
`isBackground` equals the (absent, hence not-`true`) `isSidechain` flag. -/
theorem c4_isBackground_iff_isSidechain_witness :
    parseLine env0 (some progressNoSidechain) = some progressParsed ∧
    progressParsed.usage.isBackground =
      jsIsTrue (progressNoSidechainFields.lookup "isSidechain") :=
  ⟨rfl, c4_isBackground_iff_isSidechain env0 progressNoSidechainFields
    progressParsed rfl⟩

/-- C6: every parsed record's `costUsd` is
`(input·in + output·out + cacheWrite·cw + cacheRead·cr) / 1_000_000`
under the pricing resolved for its model string; and in the concrete
end-to-end scenario (two finals on `claude-sonnet-4-6` with 1000/500 and
2000/1000 input/output tokens, no cache tokens) the summed `aiCostUsd`
is `0.0315`. -/
theorem c6_cost_formula :
    (∀ env parsed? r, parseLine env parsed? = some r →
      r.usage.costUsd =
        ((r.usage.inputTokens : ℚ) *
            (getPricing r.usage.model).inputPer1M +
          (r.usage.outputTokens : ℚ) *
            (getPricing r.usage.model).outputPer1M +
          (r.usage.cacheWriteTokens : ℚ) *
            (getPricing r.usage.model).cacheWritePer1M +
          (r.usage.cacheReadTokens : ℚ) *
            (getPricing r.usage.model).cacheReadPer1M) / 1000000) ∧
    (breakdown 75 0 sampleEmissions false).aiCostUsd = 63 / 2000 := by
  constructor
  · intro env parsed? r h
    match parsed? with
    | none => exact Option.noConfusion h
    | some Json.null => exact Option.noConfusion h
    | some (Json.bool b) => exact Option.noConfusion h
    | some (Json.num q) => exact Option.noConfusion h
    | some (Json.str s) => exact Option.noConfusion h
    | some (Json.arr xs) => exact Option.noConfusion h
    | some (Json.obj fields) =>
      obtain ⟨mid, sr, model, usage, rfl⟩ := parseLine_shape env fields r h
      rfl
  · simp [breakdown, sampleEmissions, sampleRecords, finalLine1,
      finalLine2, parseLine, parseAssistantRecord, buildRecord,
      recordTimestamp, env0, ingestAll, ingestParsed, startedSniffer,
      toInt, getPricing, MODEL_PRICING, DEFAULT_PRICING, jsStr?, jsObj?,
      jsIsTrue, mapDelete, List.lookup]
    norm_num

/-- Witness for C6: the formula instantiated on the first concrete final
line of the scenario. -/
theorem c6_cost_formula_witness :
    sampleRec1.usage.costUsd =
      ((sampleRec1.usage.inputTokens : ℚ) *
          (getPricing sampleRec1.usage.model).inputPer1M +
        (sampleRec1.usage.outputTokens : ℚ) *
          (getPricing sampleRec1.usage.model).outputPer1M +
        (sampleRec1.usage.cacheWriteTokens : ℚ) *
          (getPricing sampleRec1.usage.model).cacheWritePer1M +
        (sampleRec1.usage.cacheReadTokens : ℚ) *
          (getPricing sampleRec1.usage.model).cacheReadPer1M) / 1000000 :=
  c6_cost_formula.1 env0 (some finalLine1) sampleRec1 rfl

/-- C9: the parser is total (it is a function in this model) and yields
`none` instead of an error on every malformed or irrelevant line: a line
whose `JSON.parse` fails, a line whose JSON value is not an object, an
object with a `type` other than `"assistant"` or `"progress"`, and an
assistant record lacking a string message id or an object-valued usage
field are all skipped. -/
theorem c9_malformed_lines_skipped (env : JsEnv) :
    parseLine env none = none ∧
    (∀ j, jsObj? (some j) = none → parseLine env (some j) = none) ∧
    (∀ fields, jsStr? (fields.lookup "type") ≠ some "assistant" →
      jsStr? (fields.lookup "type") ≠ some "progress" →
      parseLine env (some (Json.obj fields)) = none) ∧
    (∀ fields message,
      fields.lookup "type" = some (Json.str "assistant") →
      jsObj? (fields.lookup "message") = some message →
      (jsStr? (message.lookup "id") = none ∨
        jsObj? (message.lookup "usage") = none) →
      parseLine env (some (Json.obj fields)) = none) := by
  refine ⟨rfl, ?_, ?_, ?_⟩
  · intro j hj
    cases j <;> first | rfl | simp [jsObj?] at hj
  · intro fields h1 h2
    simp only [parseLine]
    split
    · next t heq =>
      rw [heq] at h1 h2
      simp only [jsStr?, ne_eq, Option.some.injEq] at h1 h2
      simp [h1, h2]
    · rfl
  · intro fields message h1 h2 h3
    simp only [parseLine, h1]
    simp only [if_pos rfl, parseAssistantRecord, h2]
    rcases h3 with h3 | h3
    · cases hu : jsObj? (message.lookup "usage") <;> simp [hu, h3]
    · simp [h3]

/-- Witness for C9: four concrete malformed/irrelevant lines, each
skipped. -/
theorem c9_malformed_lines_skipped_witness :
    parseLine env0 none = none ∧
    parseLine env0 (some (Json.str "hi")) = none ∧
    parseLine env0 (some (Json.obj [("type", Json.str "user")])) = none ∧
    parseLine env0 (some assistantNoUsage) = none :=
  ⟨(c9_malformed_lines_skipped env0).1,
   (c9_malformed_lines_skipped env0).2.1 (Json.str "hi") rfl,
   (c9_malformed_lines_skipped env0).2.2.1 [("type", Json.str "user")]
     (by decide) (by decide),
   (c9_malformed_lines_skipped env0).2.2.2 assistantNoUsageFields
     [("id", Json.str "m9")] rfl rfl (Or.inr rfl)⟩

/-- The length of a `filterMap` is the number of elements the function
keeps. -/
lemma length_filterMap_eq {α β : Type} (f : α → Option β) (l : List α) :
    (l.filterMap f).length =
      (l.filter (fun a => (f a).isSome)).length := by
  induction l with
  | nil => rfl
  | cons a l ih => cases hfa : f a <;> simp [List.filterMap_cons, hfa, ih]

/-- The historical reader keeps a raw line exactly when it is a JSON
object with `type:"assistant"`, an object `message` and an object
`message.usage`. -/
lemma histParse_isSome_eq_qualifies (env : JsEnv) (l : RawLine) :
    (histParseRawLine env l).isSome = histQualifies l := by
  cases l with
  | blank => rfl
  | invalid => rfl
  | json j =>
    cases j with
    | obj fields =>
      simp only [histParseRawLine, histParseJson, histQualifies]
      split
      · next t heq =>
        by_cases ht : t = "assistant"
        · simp only [ht, if_pos rfl]
          cases hm : jsObj? (fields.lookup "message") <;> simp only [hm]
          · rfl
          · next message =>
            cases hu : jsObj? (message.lookup "usage") <;> simp [hu]
        · simp [ht]
      · rfl
    | null => rfl
    | bool b => rfl
    | num q => rfl
    | str s => rfl
    | arr xs => rfl

/-- C10: the one-shot historical reader applies no messageId dedup and
recognizes only `type:"assistant"` records: `readFile` returns exactly
one `TokenUsage` per line parsing as an assistant record with an object
usage field (so repeated partial frames of one messageId each yield a
record), `readAll` concatenates that over the file set, and
`type:"progress"` lines yield nothing. -/
theorem c10_hist_reader_counts_every_assistant_line (env : JsEnv) :
    (∀ lines, (histReadFile env lines).length =
      (lines.filter histQualifies).length) ∧
    (∀ files, (histReadAll env files).length =
      (files.map (fun ls => (ls.filter histQualifies).length)).sum) ∧
    (∀ fields, fields.lookup "type" = some (Json.str "progress") →
      histParseRawLine env (RawLine.json (Json.obj fields)) = none) ∧
    (histReadFile env
      [RawLine.json partialFrame1, RawLine.json partialFrame2]).length =
      2 := by
  have hfile : ∀ lines, (histReadFile env lines).length =
      (lines.filter histQualifies).length := by
    intro lines
    unfold histReadFile
    rw [length_filterMap_eq]
    congr 1
    exact List.filter_congr
      (fun a _ => histParse_isSome_eq_qualifies env a)
  refine ⟨hfile, ?_, ?_, ?_⟩
  · intro files
    induction files with
    | nil => rfl
    | cons f fs ih =>
      simp only [histReadAll, List.flatMap_cons, List.length_append,
        List.map_cons, List.sum_cons]
      rw [← ih]
      rw [hfile f]
      rfl
  · intro fields h
    simp [histParseRawLine, histParseJson, h]
  · rfl

/-- Witness for C10: two partial frames sharing `message.id = "m-dup"`
both come back from the reader (no dedup), and a concrete progress line
yields nothing. -/
theorem c10_hist_reader_counts_every_assistant_line_witness :
    (histReadFile env0
      [RawLine.json partialFrame1, RawLine.json partialFrame2]).length =
      ([RawLine.json partialFrame1,
        RawLine.json partialFrame2].filter histQualifies).length ∧
    histParseRawLine env0 (RawLine.json (Json.obj
      progressNoSidechainFields)) = none :=
  ⟨(c10_hist_reader_counts_every_assistant_line env0).1
      [RawLine.json partialFrame1, RawLine.json partialFrame2],
   (c10_hist_reader_counts_every_assistant_line env0).2.2.1
      progressNoSidechainFields rfl⟩

end DevValue
